import Mathlib

/-!
Verification of the MLflow deployment orchestrator
(`.github/actions/deploy/deploy.py`).

The development shallowly embeds the parts of the script that the
specification talks about:

* the resource-spec builder `MLflowDeployer.deploy_mlflow` (the pure
  construction of the MLflow custom resource from the parsed arguments),
* the bounded polling loop `MLflowDeployer.wait_for_deployment_to_exist`,
* the stage pipeline `MLflowDeployer.deploy` as a trace semantics over an
  abstract cluster oracle,
* the diagnostics collector `MLflowDeployer.debug_deployment` and the pod
  discovery of the SeaweedFS init-job debug path,
* the TLS cleanup `MLflowDeployer.cleanup_tls_certificates`.

Fallible operations are modelled with `Except`; the cluster, the filesystem
and `kubectl` are modelled as oracles supplying each call site's outcome.
-/

namespace MLflowDeploy

/-- Substring test, the model of Python's `sub in s`. -/
def containsStr (s sub : String) : Bool :=
  s.data.tails.any fun t => sub.data.isPrefixOf t

/-- The model of Python's `s.startswith(pre)` (structurally recursive so
that the kernel can evaluate it, unlike `String.startsWith`). -/
def startsWithStr (s pre : String) : Bool :=
  pre.data.isPrefixOf s.data

/-- The model of Python's `s.lower()` on ASCII input (structurally
recursive so that the kernel can evaluate it, unlike `String.toLower`). -/
def lowerStr (s : String) : String :=
  ⟨s.data.map Char.toLower⟩

/-! ## The resource-spec builder (`deploy_mlflow`, deploy.py lines 499-601)

The parsed command-line arguments that the builder reads.  The Python
`argparse` defaults restrict `backend_store`/`registry_store` to
`sqlite`/`postgres`, `artifact_storage` to `file`/`s3` and `serve_artifacts`
to the strings `"true"`/`"false"`, but the builder itself works on the raw
strings, which is how it is embedded here. -/
structure Args where
  ns : String
  mlflow_image : String
  backend_store : String
  registry_store : String
  artifact_storage : String
  serve_artifacts : String
  backend_store_uri : String
  registry_store_uri : String
  artifacts_destination : String
  s3_bucket : String
  s3_endpoint : String
deriving DecidableEq, Repr

/-- A `secretKeyRef`-style reference `{"name": ..., "key": ...}`. -/
structure SecretKeyRef where
  name : String
  key : String
deriving DecidableEq, Repr

/-- One literal environment entry. -/
structure EnvVar where
  name : String
  value : String
deriving DecidableEq, Repr

/-- The `spec` block of the generated MLflow custom resource.  `Option`
fields model the conditional presence of the corresponding YAML keys;
`storage` records whether the persistent-storage block was emitted. -/
structure MLflowSpec where
  image : String
  imagePullPolicy : String
  backendStoreUriFrom : Option SecretKeyRef := none
  backendStoreUri : Option String := none
  registryStoreUriFrom : Option SecretKeyRef := none
  registryStoreUri : Option String := none
  serveArtifacts : Option Bool := none
  artifactsDestination : Option String := none
  defaultArtifactRoot : Option String := none
  envFromSecret : Option String := none
  env : Option (List EnvVar) := none
  storage : Bool := false
deriving DecidableEq, Repr

/-- deploy.py lines 509-522: the base CR structure. -/
def baseSpec (a : Args) : MLflowSpec :=
  { image := a.mlflow_image, imagePullPolicy := "Always" }

/-- deploy.py lines 524-531: backend store axis. -/
def configureBackend (a : Args) (s : MLflowSpec) : MLflowSpec :=
  if a.backend_store == "postgres" then
    { s with backendStoreUriFrom := some ⟨"mlflow-db-credentials", "backend-store-uri"⟩ }
  else
    { s with backendStoreUri := some a.backend_store_uri }

/-- deploy.py lines 533-540: registry store axis. -/
def configureRegistry (a : Args) (s : MLflowSpec) : MLflowSpec :=
  if a.registry_store == "postgres" then
    { s with registryStoreUriFrom := some ⟨"mlflow-db-credentials", "registry-store-uri"⟩ }
  else
    { s with registryStoreUri := some a.registry_store_uri }

/-- deploy.py lines 542-582: artifact storage axis.  The returned `Bool` is
the flag "the serve-artifacts override warning was printed". -/
def configureArtifacts (a : Args) (s : MLflowSpec) : MLflowSpec × Bool :=
  if a.artifact_storage == "s3" then
    let t1 := { s with serveArtifacts := some (lowerStr a.serve_artifacts == "true"),
                       artifactsDestination := some ("s3://" ++ a.s3_bucket ++ "/artifacts") }
    let t2 :=
      if a.serve_artifacts == "false" then
        { t1 with defaultArtifactRoot := some ("s3://" ++ a.s3_bucket ++ "/artifacts/runs") }
      else t1
    ({ t2 with envFromSecret := some "aws-credentials",
               env := some [⟨"MLFLOW_S3_ENDPOINT_URL", a.s3_endpoint⟩] }, false)
  else
    let (t1, warned) :=
      if startsWithStr a.artifacts_destination "file://" then
        if a.serve_artifacts == "false" then
          ({ s with serveArtifacts := some true }, true)
        else
          ({ s with serveArtifacts := some true }, false)
      else
        ({ s with serveArtifacts := some (lowerStr a.serve_artifacts == "true") }, false)
    let t2 := { t1 with artifactsDestination := some a.artifacts_destination }
    let t3 :=
      if a.serve_artifacts == "false"
          && !(startsWithStr a.artifacts_destination "file://") then
        { t2 with defaultArtifactRoot := some (a.artifacts_destination ++ "/runs") }
      else t2
    (t3, warned)

/-- deploy.py lines 584-593: persistent-storage block for local
file/sqlite backends. -/
def addStorage (a : Args) (s : MLflowSpec) : MLflowSpec :=
  if !(a.backend_store == "postgres") || !(a.registry_store == "postgres")
      || !(a.artifact_storage == "s3") then
    { s with storage := true }
  else s

/-- The full CR construction of `deploy_mlflow` (deploy.py lines 499-593):
the generated spec together with the warning flag. -/
def deploy_mlflow_cr (a : Args) : MLflowSpec × Bool :=
  let s0 := baseSpec a
  let s1 := configureBackend a s0
  let s2 := configureRegistry a s1
  let (s3, warned) := configureArtifacts a s2
  (addStorage a s3, warned)

/-- The argparse defaults of deploy.py lines 915-953 (fields the CR builder
reads). -/
def defaultArgs : Args :=
  { ns := "mlflow"
    mlflow_image := "quay.io/opendatahub/mlflow:odh-stable"
    backend_store := "sqlite"
    registry_store := "sqlite"
    artifact_storage := "file"
    serve_artifacts := "true"
    backend_store_uri := "sqlite:////mlflow/mlflow.db"
    registry_store_uri := "sqlite:////mlflow/mlflow.db"
    artifacts_destination := "file:///mlflow/artifacts"
    s3_bucket := "mlpipeline"
    s3_endpoint := "http://minio-service.mlflow.svc.cluster.local:9000" }

/-! ### Structural lemmas about the CR builder -/

lemma configureArtifacts_stores (a : Args) (s : MLflowSpec) :
    (configureArtifacts a s).1.backendStoreUriFrom = s.backendStoreUriFrom
  ∧ (configureArtifacts a s).1.backendStoreUri = s.backendStoreUri
  ∧ (configureArtifacts a s).1.registryStoreUriFrom = s.registryStoreUriFrom
  ∧ (configureArtifacts a s).1.registryStoreUri = s.registryStoreUri
  ∧ (configureArtifacts a s).1.storage = s.storage := by
  cases h1 : a.artifact_storage == "s3" <;>
    cases h2 : startsWithStr a.artifacts_destination "file://" <;>
      cases h3 : a.serve_artifacts == "false" <;>
        simp [configureArtifacts, h1, h2, h3]

lemma addStorage_other (a : Args) (s : MLflowSpec) :
    (addStorage a s).backendStoreUriFrom = s.backendStoreUriFrom
  ∧ (addStorage a s).backendStoreUri = s.backendStoreUri
  ∧ (addStorage a s).registryStoreUriFrom = s.registryStoreUriFrom
  ∧ (addStorage a s).registryStoreUri = s.registryStoreUri
  ∧ (addStorage a s).serveArtifacts = s.serveArtifacts
  ∧ (addStorage a s).defaultArtifactRoot = s.defaultArtifactRoot := by
  unfold addStorage
  split <;> simp

/-! ### Claims about the CR builder -/

/-- Concrete configuration: artifact mode `file` with a non-`file://`
destination and an explicit `--serve-artifacts false`. -/
def hdfsArgs : Args :=
  { defaultArgs with artifacts_destination := "hdfs://data", serve_artifacts := "false" }

/-- Concrete configuration of spec Scenario A: artifact mode `file`,
`file://` destination, explicit `--serve-artifacts false`. -/
def fileNoServeArgs : Args :=
  { defaultArgs with serve_artifacts := "false" }

/-- Concrete configuration of spec Scenario B: postgres backend and
registry, s3 artifacts. -/
def scenarioBArgs : Args :=
  { defaultArgs with backend_store := "postgres", registry_store := "postgres"
                     artifact_storage := "s3" }

/-- C1, counterexample.  The claim asserts that in artifact mode `file` the
generated spec has `serveArtifacts = true` whatever the artifacts
destination and the serve-artifacts input.  The code forces
`serveArtifacts` to `true` only when the destination starts with
`file://`; for any other destination it honours the input, so with
destination `hdfs://data` and serve-artifacts `"false"` the generated
spec carries `serveArtifacts = false`. -/
theorem serve_flag_file_mode_counterexample :
    hdfsArgs.artifact_storage = "file"
  ∧ (deploy_mlflow_cr hdfsArgs).1.serveArtifacts = some false := by
  constructor <;> rfl

/-- C1, amended.  For artifact mode `file` with a destination prefixed
`file://`, the generated spec always has `serveArtifacts = true`, the
override warning is emitted exactly when the explicit serve-artifacts input
was `"false"`, and no `defaultArtifactRoot` key is emitted. -/
theorem file_destination_forces_serve (a : Args)
    (hmode : a.artifact_storage = "file")
    (hdest : startsWithStr a.artifacts_destination "file://" = true) :
    (deploy_mlflow_cr a).1.serveArtifacts = some true
  ∧ ((deploy_mlflow_cr a).2 = true ↔ a.serve_artifacts = "false")
  ∧ (deploy_mlflow_cr a).1.defaultArtifactRoot = none := by
  have hs3 : (a.artifact_storage == "s3") = false := by simp [hmode]
  cases h3 : a.serve_artifacts == "false" <;>
    simp_all [deploy_mlflow_cr, configureArtifacts, hs3, hdest,
      addStorage_other, configureBackend, configureRegistry, baseSpec] <;>
    cases hb : a.backend_store == "postgres" <;>
      cases hr : a.registry_store == "postgres" <;>
        simp_all [addStorage_other]

/-- C1, witness for `file_destination_forces_serve` at the argparse
defaults with serve-artifacts `"false"` (spec Scenario A). -/
theorem file_destination_forces_serve_witness :
    (deploy_mlflow_cr fileNoServeArgs).1.serveArtifacts = some true
  ∧ (deploy_mlflow_cr fileNoServeArgs).2 = true
  ∧ (deploy_mlflow_cr fileNoServeArgs).1.defaultArtifactRoot = none := by
  have h := file_destination_forces_serve fileNoServeArgs rfl rfl
  exact ⟨h.1, h.2.1.mpr rfl, h.2.2⟩

/-- C2.  For every configuration, the generated spec carries the backend
secret reference exactly when the backend-store mode is `postgres` and the
literal backend URI exactly otherwise, and likewise on the registry axis:
per store axis exactly one of the two fields is present. -/
theorem store_axes_exclusive (a : Args) :
    ((deploy_mlflow_cr a).1.backendStoreUriFrom.isSome = true
        ↔ a.backend_store = "postgres")
  ∧ ((deploy_mlflow_cr a).1.backendStoreUri.isSome = true
        ↔ ¬a.backend_store = "postgres")
  ∧ ((deploy_mlflow_cr a).1.registryStoreUriFrom.isSome = true
        ↔ a.registry_store = "postgres")
  ∧ ((deploy_mlflow_cr a).1.registryStoreUri.isSome = true
        ↔ ¬a.registry_store = "postgres") := by
  obtain ⟨h1, h2, h3, h4, -⟩ :=
    configureArtifacts_stores a (configureRegistry a (configureBackend a (baseSpec a)))
  obtain ⟨g1, g2, g3, g4, -, -⟩ :=
    addStorage_other a (configureArtifacts a (configureRegistry a (configureBackend a (baseSpec a)))).1
  cases hb : a.backend_store == "postgres" <;>
    cases hr : a.registry_store == "postgres" <;>
      simp_all [deploy_mlflow_cr, configureBackend, configureRegistry, baseSpec]

/-- C2, witness for `store_axes_exclusive` at the argparse defaults. -/
theorem store_axes_exclusive_witness :
    (deploy_mlflow_cr defaultArgs).1.backendStoreUriFrom.isSome = false
  ∧ (deploy_mlflow_cr defaultArgs).1.backendStoreUri.isSome = true := by
  have h := store_axes_exclusive defaultArgs
  refine ⟨?_, h.2.1.mpr (by decide)⟩
  have := h.1
  cases hx : (deploy_mlflow_cr defaultArgs).1.backendStoreUriFrom.isSome
  · rfl
  · exact absurd (this.mp hx) (by decide)

/-- C3.  The persistent-storage block is present iff it is not the case
that backend is `postgres`, registry is `postgres` and artifacts are `s3`. -/
theorem storage_block_iff (a : Args) :
    (deploy_mlflow_cr a).1.storage = true
      ↔ ¬(a.backend_store = "postgres" ∧ a.registry_store = "postgres"
            ∧ a.artifact_storage = "s3") := by
  obtain ⟨-, -, -, -, h5⟩ :=
    configureArtifacts_stores a (configureRegistry a (configureBackend a (baseSpec a)))
  cases hb : a.backend_store == "postgres" <;>
    cases hr : a.registry_store == "postgres" <;>
      cases hs : a.artifact_storage == "s3" <;>
        simp_all [deploy_mlflow_cr, addStorage, configureBackend, configureRegistry, baseSpec]

/-- C3, witness for `storage_block_iff` at the fully external
configuration of spec Scenario B (no storage block). -/
theorem storage_block_iff_witness :
    (deploy_mlflow_cr scenarioBArgs).1.storage = false := by
  have h := storage_block_iff scenarioBArgs
  cases hx : (deploy_mlflow_cr scenarioBArgs).1.storage
  · rfl
  · exact absurd (h.mp hx) (by simp [scenarioBArgs, defaultArgs])

/-! ## The polling loop (`wait_for_deployment_to_exist`, deploy.py lines 777-800)

Each loop cycle issues one `kubectl get deployment` query (run with
`check=False` and its exceptions swallowed by `except Exception: pass`), so
one query has three possible outcomes. -/

/-- Outcome of one existence query: the deployment was reported present
(`returncode == 0`), reported absent (non-zero returncode), or the query
itself raised (swallowed by the loop). -/
inductive QueryResult where
  | found
  | notFound
  | queryError
deriving DecidableEq, Repr

/-- Only a clean positive reply counts as "the deployment exists". -/
def QueryResult.positive : QueryResult → Bool
  | .found => true
  | _ => false

/-- The `while elapsed_time < timeout` loop body: `query k` is the outcome
of the k-th poll cycle's query; `elapsed` is the `elapsed_time` counter,
incremented by `poll_interval` after each sleep.  Returns `.ok elapsed` on
success, `.error elapsed` for the timeout exception. -/
def waitExistsAux (query : Nat → QueryResult) (timeout pollInterval : Nat)
    (hp : 0 < pollInterval) (k elapsed : Nat) : Except Nat Nat :=
  if h : elapsed < timeout then
    if (query k).positive then Except.ok elapsed
    else waitExistsAux query timeout pollInterval hp (k + 1) (elapsed + pollInterval)
  else Except.error elapsed
termination_by timeout - elapsed
decreasing_by omega

/-- `wait_for_deployment_to_exist`: the loop entered with
`elapsed_time = 0`.  (The call sites use `timeout=300`, `poll_interval=10`;
the positivity hypothesis records that the poll interval is a positive
number of seconds.) -/
def wait_for_deployment_to_exist (query : Nat → QueryResult)
    (timeout pollInterval : Nat) (hp : 0 < pollInterval) : Except Nat Nat :=
  waitExistsAux query timeout pollInterval hp 0 0

lemma waitExistsAux_spec (query : Nat → QueryResult) (timeout pollInterval : Nat)
    (hp : 0 < pollInterval) :
    ∀ fuel k elapsed, timeout - elapsed ≤ fuel → elapsed = k * pollInterval →
      elapsed < timeout + pollInterval →
      (∀ j, j < k → (query j).positive = false) →
      (∀ e, waitExistsAux query timeout pollInterval hp k elapsed = .error e →
          timeout ≤ e ∧ e < timeout + pollInterval
        ∧ ∀ i, i * pollInterval < timeout → (query i).positive = false)
    ∧ (∀ t, waitExistsAux query timeout pollInterval hp k elapsed = .ok t →
          ∃ i, t = i * pollInterval ∧ t < timeout ∧ (query i).positive = true
        ∧ ∀ j, j < i → (query j).positive = false) := by
  intro fuel
  induction fuel with
  | zero =>
    intro k elapsed hfuel helapsed hlt hhist
    have hte : timeout ≤ elapsed := by omega
    rw [waitExistsAux]
    simp only [dif_neg (by omega : ¬ elapsed < timeout)]
    constructor
    · intro e he
      cases he
      refine ⟨hte, hlt, fun i hi => ?_⟩
      have : i < k := by
        by_contra hik
        have : k * pollInterval ≤ i * pollInterval :=
          Nat.mul_le_mul_right pollInterval (by omega)
        omega
      exact hhist i this
    · intro t ht
      cases ht
  | succ n ih =>
    intro k elapsed hfuel helapsed hlt hhist
    rw [waitExistsAux]
    by_cases h : elapsed < timeout
    · simp only [dif_pos h]
      cases hq : (query k).positive
      · simp only [Bool.false_eq_true, if_false]
        have := ih (k + 1) (elapsed + pollInterval) (by omega)
          (by rw [helapsed]; ring) (by omega)
          (fun j hj => by
            rcases Nat.lt_succ_iff_lt_or_eq.mp hj with hj' | hj'
            · exact hhist j hj'
            · simpa [hj'] using hq)
        exact this
      · simp only [if_true]
        constructor
        · intro e he
          cases he
        · intro t ht
          cases ht
          exact ⟨k, helapsed, h, hq, hhist⟩
    · simp only [dif_neg h]
      constructor
      · intro e he
        cases he
        refine ⟨by omega, hlt, fun i hi => ?_⟩
        have : i < k := by
          by_contra hik
          have : k * pollInterval ≤ i * pollInterval :=
            Nat.mul_le_mul_right pollInterval (by omega)
          omega
        exact hhist i this
      · intro t ht
        cases ht

/-- C4.  For every timeout and positive poll interval: if the loop raises
the exists-timeout error, the cumulative elapsed time `e` satisfies
`timeout ≤ e < timeout + pollInterval` (never before the timeout, never
more than one poll interval after it) and no query inside the polling
window was positive (query errors count as negative, and are not
propagated); if the loop returns success, it does so at the first poll
cycle whose query was positive, before the timeout. -/
theorem wait_exists_correct (query : Nat → QueryResult)
    (timeout pollInterval : Nat) (hp : 0 < pollInterval) :
    (∀ e, wait_for_deployment_to_exist query timeout pollInterval hp = .error e →
        timeout ≤ e ∧ e < timeout + pollInterval
      ∧ ∀ i, i * pollInterval < timeout → (query i).positive = false)
  ∧ (∀ t, wait_for_deployment_to_exist query timeout pollInterval hp = .ok t →
        ∃ i, t = i * pollInterval ∧ t < timeout ∧ (query i).positive = true
      ∧ ∀ j, j < i → (query j).positive = false) := by
  exact waitExistsAux_spec query timeout pollInterval hp timeout 0 0
    (by omega) (by omega) (by omega) (fun j hj => absurd hj (Nat.not_lt_zero j))

/-- C4, witness for `wait_exists_correct`: with a 25-second timeout, a
10-second poll interval and a never-positive query (the query raises on
every cycle), the loop raises its timeout error at cumulative elapsed time
30, which lies in the half-open window `[25, 35)`. -/
theorem wait_exists_correct_witness :
    0 < 10 ∧ (25 : Nat) ≤ 30 ∧ (30 : Nat) < 25 + 10 := by
  have hrun : wait_for_deployment_to_exist (fun _ => QueryResult.queryError) 25 10
      (by omega) = .error 30 := by
    rw [wait_for_deployment_to_exist]
    rw [waitExistsAux, waitExistsAux, waitExistsAux, waitExistsAux]
    rfl
  have h := (wait_exists_correct (fun _ => QueryResult.queryError) 25 10 (by omega)).1
    30 hrun
  exact ⟨by omega, h.1, h.2.1⟩

/-! ## The stage pipeline (`deploy`, deploy.py lines 872-912)

The pipeline is modelled as a trace semantics.  Each cluster operation is
one event; an abstract oracle decides the outcome of every call site
(identified by a stable name).  `kubectl wait` invocations and the
existence-polling calls are modelled as single operations, and each
invocation of the diagnostics collector (`debug_deployment` and the
specialised debug helpers) is a single `diag` event naming the debugged
workload. -/

/-- One observable action of the pipeline.  `cmd name checked ok` is one
cluster operation: `checked` is Python's `check=True` (a failure raises),
`ok` its outcome.  `diag w` is one invocation of the diagnostics collector
on workload `w`.  `cleanup` is the TLS cleanup of the `finally` block. -/
inductive Event where
  | cmd (name : String) (checked : Bool) (ok : Bool)
  | diag (workload : String)
  | cleanup
deriving DecidableEq, Repr

/-- The cluster oracle: per call site, whether the operation succeeds and
what it prints on stdout (used only by the namespace query). -/
structure Cluster where
  ok : String → Bool
  out : String → String

/-- A `run_command(..., check=True)` call: raises (fails) iff the oracle
says so. -/
def runC (c : Cluster) (n : String) : List Event × Bool :=
  ([Event.cmd n true (c.ok n)], c.ok n)

/-- A `run_command(..., check=False)` call: the outcome is recorded but
never raises. -/
def runU (c : Cluster) (n : String) : List Event × Bool :=
  ([Event.cmd n false (c.ok n)], true)

/-- Sequencing: run `f` only when `a` succeeded (an exception in `a`
propagates past the rest of the stage). -/
def seqStep (a : List Event × Bool) (f : Unit → List Event × Bool) :
    List Event × Bool :=
  if a.2 then (a.1 ++ (f ()).1, (f ()).2) else a

/-- A `try: body except: debug_deployment(w); raise` block: on failure of
the body, one diagnostics invocation is appended and the failure is
re-raised. -/
def tryDiag (body : List Event × Bool) (w : String) : List Event × Bool :=
  if body.2 then body else (body.1 ++ [Event.diag w], false)

/-- deploy.py lines 120-137, `create_namespace`: query the namespace
(`check=False`), then create it only when the query output does not report
it `Active`. -/
def create_namespace (c : Cluster) : List Event × Bool :=
  seqStep (runU c "get-ns") fun _ =>
    if containsStr (c.out "get-ns") "Active" then ([], true)
    else runC c "create-ns"

/-- deploy.py lines 472-497, `deploy_postgres`: apply the manifests (not
guarded by any try), then `try` the existence poll and the availability
wait, debugging `postgres-deployment` on failure. -/
def deploy_postgres (c : Cluster) : List Event × Bool :=
  seqStep (runC c "apply-postgres") fun _ =>
    tryDiag (seqStep (runC c "wait-exists-postgres") fun _ =>
      runC c "wait-avail-postgres") "postgres-deployment"

/-- deploy.py lines 225-246, `create_postgres_secret`: delete-then-create
of the database credentials secret. -/
def create_postgres_secret (c : Cluster) : List Event × Bool :=
  seqStep (runU c "delete-db-secret") fun _ => runC c "create-db-secret"

/-- deploy.py lines 248-262, `create_s3_secret`: delete-then-create of the
object-store credentials secret. -/
def create_s3_secret (c : Cluster) : List Event × Bool :=
  seqStep (runU c "delete-s3-secret") fun _ => runC c "create-s3-secret"

/-- deploy.py lines 264-470, `deploy_seaweedfs`: delete the old init job,
apply the manifests (unguarded), `try` the existence poll and availability
wait (debugging `seaweedfs` on failure), then `try` the init-job
completion wait; its large except-block is one diagnostics invocation on
`init-seaweedfs`. -/
def deploy_seaweedfs (c : Cluster) : List Event × Bool :=
  seqStep (runU c "delete-job-seaweedfs") fun _ =>
    seqStep (runC c "apply-seaweedfs") fun _ =>
      seqStep (tryDiag (seqStep (runC c "wait-exists-seaweedfs") fun _ =>
          runC c "wait-avail-seaweedfs") "seaweedfs") fun _ =>
        tryDiag (runC c "wait-job-seaweedfs") "init-seaweedfs"

/-- deploy.py lines 187-223 with 139-165, `deploy_mlflow_operator`: the two
`sed` edits, TLS generation (`chmod`, the generation script, and the raise
when the produced files are missing, modelled as the checked pseudo-
operation `verify-tls-files`), the kustomize apply, then the `try`ed
availability wait debugging the operator deployment on failure. -/
def deploy_mlflow_operator (c : Cluster) : List Event × Bool :=
  seqStep (runC c "sed-ns") fun _ =>
    seqStep (runC c "sed-image") fun _ =>
      seqStep (runC c "chmod-tls") fun _ =>
        seqStep (runC c "generate-tls") fun _ =>
          seqStep (runC c "verify-tls-files") fun _ =>
            seqStep (runC c "apply-operator") fun _ =>
              tryDiag (runC c "wait-avail-operator") "mlflow-operator-controller-manager"

/-- deploy.py lines 595-625, the imperative part of `deploy_mlflow`: apply
the generated CR (unguarded), `try` the existence poll (its handler
`_debug_operator_logs` debugs the operator deployment), then `try` the
availability wait (its handler `_debug_mlflow_deployment` debugs
`mlflow`). -/
def deploy_mlflow_stage (c : Cluster) : List Event × Bool :=
  seqStep (runC c "apply-cr") fun _ =>
    seqStep (tryDiag (runC c "wait-exists-mlflow")
        "mlflow-operator-controller-manager") fun _ =>
      tryDiag (runC c "wait-avail-mlflow") "mlflow"

/-- deploy.py lines 684-709, `setup_port_forward`: the service query is
wrapped in a `try` whose handler merely returns, so the stage never
fails. -/
def setup_port_forward (c : Cluster) : List Event × Bool :=
  ([Event.cmd "get-svc" true (c.ok "get-svc")], true)

/-- One pipeline stage: a gating predicate over the configuration and the
stage body (spec §3 `DeploymentStep`). -/
structure PipeStep where
  enabled : Args → Bool
  action : Cluster → List Event × Bool

/-- Sequential execution of the enabled stages, aborting on the first
failure (deploy.py lines 883-903). -/
def runSteps (a : Args) (c : Cluster) : List PipeStep → List Event × Bool
  | [] => ([], true)
  | s :: rest =>
    if s.enabled a then
      let r := s.action c
      if r.2 then
        let r2 := runSteps a c rest
        (r.1 ++ r2.1, r2.2)
      else (r.1, false)
    else runSteps a c rest

/-- deploy.py lines 888-890: the postgres stage body (deploy, then
recreate the credentials secret). -/
def postgresStage (c : Cluster) : List Event × Bool :=
  seqStep (deploy_postgres c) fun _ => create_postgres_secret c

/-- deploy.py lines 892-894: the s3 stage body (recreate the credentials
secret, then deploy SeaweedFS). -/
def s3Stage (c : Cluster) : List Event × Bool :=
  seqStep (create_s3_secret c) fun _ => deploy_seaweedfs c

/-- The fixed stage list of `deploy` (deploy.py lines 883-903). -/
def pipelineSteps : List PipeStep :=
  [ ⟨fun _ => true, create_namespace⟩,
    ⟨fun a => a.backend_store == "postgres" || a.registry_store == "postgres",
      postgresStage⟩,
    ⟨fun a => a.artifact_storage == "s3", s3Stage⟩,
    ⟨fun _ => true, deploy_mlflow_operator⟩,
    ⟨fun _ => true, deploy_mlflow_stage⟩,
    ⟨fun _ => true, setup_port_forward⟩ ]

/-- The `try` block of `deploy`. -/
def deployPipeline (a : Args) (c : Cluster) : List Event × Bool :=
  runSteps a c pipelineSteps

/-- `deploy` (deploy.py lines 872-912): the stages under `try`, the
`except` handler turning any failure into `sys.exit(1)`, and the `finally`
clause running the TLS cleanup before the process terminates.  Returns the
event trace and the process exit code. -/
def deploy (a : Args) (c : Cluster) : List Event × Nat :=
  let r := deployPipeline a c
  (r.1 ++ [Event.cleanup], if r.2 then 0 else 1)

/-! ### Trace predicates -/

/-- The names of the cluster operations attempted in a trace. -/
def cmdNames (l : List Event) : List String :=
  l.filterMap fun e =>
    match e with
    | Event.cmd n _ _ => some n
    | _ => none

/-- An event that raised: a `check=True` operation that failed. -/
def checkedFail : Event → Bool
  | Event.cmd _ true false => true
  | _ => false

/-- Which diagnostics invocation each failing wait operation triggers
(deploy.py lines 483-497, 289-470, 214-223, 607-625). -/
def waitDiagMap : List (String × String) :=
  [("wait-exists-postgres", "postgres-deployment"),
   ("wait-avail-postgres", "postgres-deployment"),
   ("wait-exists-seaweedfs", "seaweedfs"),
   ("wait-avail-seaweedfs", "seaweedfs"),
   ("wait-job-seaweedfs", "init-seaweedfs"),
   ("wait-avail-operator", "mlflow-operator-controller-manager"),
   ("wait-exists-mlflow", "mlflow-operator-controller-manager"),
   ("wait-avail-mlflow", "mlflow")]

/-- No operation in the trace raised. -/
def NoFail (l : List Event) : Prop := ∀ e ∈ l, checkedFail e = false

/-- The shape of a failed trace: everything before the failing checked
operation succeeded, and nothing follows it except possibly a single
diagnostics invocation. -/
def FailShape (l : List Event) : Prop :=
  ∃ pre n post, l = pre ++ Event.cmd n true false :: post ∧ NoFail pre
    ∧ (post = [] ∨ ∃ w, post = [Event.diag w])

/-- Stage contract: a successful run has no raising operation; a failed
run has `FailShape`. -/
def StageSpec (r : List Event × Bool) : Prop :=
  (r.2 = true → NoFail r.1) ∧ (r.2 = false → FailShape r.1)

/-- Like `StageSpec` but with nothing at all after the failing operation
(traces not wrapped in a diagnostics `try`). -/
def PlainSpec (r : List Event × Bool) : Prop :=
  (r.2 = true → NoFail r.1)
  ∧ (r.2 = false → ∃ pre n, r.1 = pre ++ [Event.cmd n true false] ∧ NoFail pre)

/-- A failing wait operation in the trace comes with its diagnostics
invocation, and means the whole run failed. -/
def WaitDiag (r : List Event × Bool) : Prop :=
  ∀ p ∈ waitDiagMap, Event.cmd p.1 true false ∈ r.1 →
    Event.diag p.2 ∈ r.1 ∧ r.2 = false

/-- Name-footprint contract: the operation names of the trace are distinct
and drawn from `fp`. -/
def NamesOk (r : List Event × Bool) (fp : List String) : Prop :=
  (cmdNames r.1).Nodup ∧ ∀ n ∈ cmdNames r.1, n ∈ fp

/-! ### Combinator lemmas -/

lemma cmdNames_append (l₁ l₂ : List Event) :
    cmdNames (l₁ ++ l₂) = cmdNames l₁ ++ cmdNames l₂ :=
  List.filterMap_append _ _ _

lemma seqStep_trace (a : List Event × Bool) (f : Unit → List Event × Bool) :
    (a.2 = true ∧ (seqStep a f).1 = a.1 ++ (f ()).1 ∧ (seqStep a f).2 = (f ()).2)
  ∨ (a.2 = false ∧ seqStep a f = a) := by
  unfold seqStep
  cases h : a.2 <;> simp [h]

lemma runC_plain (c : Cluster) (n : String) : PlainSpec (runC c n) := by
  constructor <;> intro h <;> simp only [runC] at h ⊢
  · intro e he
    simp only [List.mem_singleton] at he
    simp [he, checkedFail, h]
  · exact ⟨[], n, by simp [h], fun e he => by cases he⟩

lemma runU_plain (c : Cluster) (n : String) : PlainSpec (runU c n) := by
  refine ⟨fun _ => ?_, fun h => by simp [runU] at h⟩
  intro e he
  simp only [runU, List.mem_singleton] at he
  simp [he, checkedFail]

lemma seqStep_plain {a : List Event × Bool} {f : Unit → List Event × Bool}
    (ha : PlainSpec a) (hf : PlainSpec (f ())) : PlainSpec (seqStep a f) := by
  rcases seqStep_trace a f with ⟨h2, htr, hres⟩ | ⟨h2, heq⟩
  · constructor <;> intro h
    · intro e he
      rw [htr] at he
      rcases List.mem_append.mp he with he | he
      · exact ha.1 h2 e he
      · exact hf.1 (hres ▸ h) e he
    · obtain ⟨pre, n, hfr, hpre⟩ := hf.2 (hres ▸ h)
      refine ⟨a.1 ++ pre, n, by rw [htr, hfr, List.append_assoc], ?_⟩
      intro e he
      rcases List.mem_append.mp he with he | he
      · exact ha.1 h2 e he
      · exact hpre e he
  · rw [heq]
    exact ha

lemma plain_stage {r : List Event × Bool} (h : PlainSpec r) : StageSpec r := by
  refine ⟨h.1, fun hf => ?_⟩
  obtain ⟨pre, n, htr, hpre⟩ := h.2 hf
  exact ⟨pre, n, [], by simpa using htr, hpre, Or.inl rfl⟩

lemma tryDiag_stage {body : List Event × Bool} {w : String}
    (h : PlainSpec body) : StageSpec (tryDiag body w) := by
  unfold tryDiag
  cases hb : body.2
  · simp only [hb, Bool.false_eq_true, if_false]
    obtain ⟨pre, n, htr, hpre⟩ := h.2 hb
    exact ⟨fun hc => absurd hc (by simp), fun _ =>
      ⟨pre, n, [Event.diag w], by rw [htr]; simp, hpre, Or.inr ⟨w, rfl⟩⟩⟩
  · simp only [hb, if_true]
    exact ⟨fun _ => h.1 hb, fun hc => absurd (hb ▸ hc) (by simp)⟩

lemma seqStep_stage {a : List Event × Bool} {f : Unit → List Event × Bool}
    (ha : StageSpec a) (hf : StageSpec (f ())) : StageSpec (seqStep a f) := by
  rcases seqStep_trace a f with ⟨h2, htr, hres⟩ | ⟨h2, heq⟩
  · constructor <;> intro h
    · intro e he
      rw [htr] at he
      rcases List.mem_append.mp he with he | he
      · exact ha.1 h2 e he
      · exact hf.1 (hres ▸ h) e he
    · obtain ⟨pre, n, post, hfr, hpre, hpost⟩ := hf.2 (hres ▸ h)
      refine ⟨a.1 ++ pre, n, post, by rw [htr, hfr]; simp, ?_, hpost⟩
      intro e he
      rcases List.mem_append.mp he with he | he
      · exact ha.1 h2 e he
      · exact hpre e he
  · rw [heq]
    exact ha

/-! ### Per-stage stage contracts -/

lemma create_namespace_stage (c : Cluster) : StageSpec (create_namespace c) := by
  unfold create_namespace
  refine plain_stage (seqStep_plain (runU_plain c "get-ns") ?_)
  cases h : containsStr (c.out "get-ns") "Active"
  · simp only [h, Bool.false_eq_true, if_false]
    exact runC_plain c "create-ns"
  · simp only [h, if_true]
    exact ⟨fun _ e he => absurd he (by simp), fun hc => by simp at hc⟩

lemma deploy_postgres_stage (c : Cluster) : StageSpec (deploy_postgres c) :=
  seqStep_stage (plain_stage (runC_plain c "apply-postgres"))
    (tryDiag_stage (seqStep_plain (runC_plain c "wait-exists-postgres")
      (runC_plain c "wait-avail-postgres")))

lemma create_postgres_secret_stage (c : Cluster) : StageSpec (create_postgres_secret c) :=
  plain_stage (seqStep_plain (runU_plain c "delete-db-secret")
    (runC_plain c "create-db-secret"))

lemma create_s3_secret_stage (c : Cluster) : StageSpec (create_s3_secret c) :=
  plain_stage (seqStep_plain (runU_plain c "delete-s3-secret")
    (runC_plain c "create-s3-secret"))

lemma deploy_seaweedfs_stage (c : Cluster) : StageSpec (deploy_seaweedfs c) :=
  seqStep_stage (plain_stage (runU_plain c "delete-job-seaweedfs"))
    (seqStep_stage (plain_stage (runC_plain c "apply-seaweedfs"))
      (seqStep_stage (tryDiag_stage (seqStep_plain (runC_plain c "wait-exists-seaweedfs")
          (runC_plain c "wait-avail-seaweedfs")))
        (tryDiag_stage (runC_plain c "wait-job-seaweedfs"))))

lemma deploy_mlflow_operator_stage (c : Cluster) : StageSpec (deploy_mlflow_operator c) :=
  seqStep_stage (plain_stage (runC_plain c "sed-ns"))
    (seqStep_stage (plain_stage (runC_plain c "sed-image"))
      (seqStep_stage (plain_stage (runC_plain c "chmod-tls"))
        (seqStep_stage (plain_stage (runC_plain c "generate-tls"))
          (seqStep_stage (plain_stage (runC_plain c "verify-tls-files"))
            (seqStep_stage (plain_stage (runC_plain c "apply-operator"))
              (tryDiag_stage (runC_plain c "wait-avail-operator")))))))

lemma deploy_mlflow_stage_stage (c : Cluster) : StageSpec (deploy_mlflow_stage c) :=
  seqStep_stage (plain_stage (runC_plain c "apply-cr"))
    (seqStep_stage (tryDiag_stage (runC_plain c "wait-exists-mlflow"))
      (tryDiag_stage (runC_plain c "wait-avail-mlflow")))

/-- `setup_port_forward` never fails (its probe's exception is handled
locally), but its trace may contain the handled probe failure, so it only
satisfies the failure half of the stage contract. -/
lemma setup_port_forward_never_fails (c : Cluster) :
    (setup_port_forward c).2 = true := rfl

lemma postgresStage_stage (c : Cluster) : StageSpec (postgresStage c) :=
  seqStep_stage (deploy_postgres_stage c) (create_postgres_secret_stage c)

lemma s3Stage_stage (c : Cluster) : StageSpec (s3Stage c) :=
  seqStep_stage (create_s3_secret_stage c) (deploy_seaweedfs_stage c)

/-! ### Wait-failure diagnostics, per combinator and stage -/

lemma seqStep_waitDiag {a : List Event × Bool} {f : Unit → List Event × Bool}
    (ha : WaitDiag a) (hf : WaitDiag (f ())) : WaitDiag (seqStep a f) := by
  intro p hp he
  rcases seqStep_trace a f with ⟨h2, htr, hres⟩ | ⟨h2, heq⟩
  · rw [htr] at he
    rcases List.mem_append.mp he with he | he
    · exact absurd ((ha p hp he).2) (by simp [h2])
    · obtain ⟨hd, hr⟩ := hf p hp he
      exact ⟨htr ▸ List.mem_append_right _ hd, hres ▸ hr⟩
  · rw [heq] at he ⊢
    exact ha p hp he

/-- `run_command` call sites that are not wait operations trivially satisfy
`WaitDiag`. -/
lemma runC_waitDiag (c : Cluster) (n : String)
    (hn : ∀ p ∈ waitDiagMap, ¬p.1 = n) : WaitDiag (runC c n) := by
  intro p hp he
  simp only [runC, List.mem_singleton, Event.cmd.injEq] at he
  exact absurd he.1 (hn p hp)

lemma runU_waitDiag (c : Cluster) (n : String) : WaitDiag (runU c n) := by
  intro p hp he
  simp only [runU, List.mem_singleton, Event.cmd.injEq] at he
  exact absurd he.2.1 (by simp)

/-- A `try`-wrapped single wait operation whose handler debugs `d`. -/
lemma tryDiag_runC_waitDiag (c : Cluster) (w d : String)
    (hw : ∀ p ∈ waitDiagMap, p.1 = w → p.2 = d) :
    WaitDiag (tryDiag (runC c w) d) := by
  intro p hp he
  unfold tryDiag runC at he ⊢
  cases hk : c.ok w
  · simp only [hk, Bool.false_eq_true, if_false] at he ⊢
    simp only [List.mem_append, List.mem_singleton, Event.cmd.injEq] at he
    rcases he with ⟨hq, -, -⟩ | he
    · refine ⟨?_, trivial⟩
      rw [hw p hp hq]
      exact List.mem_append_right _ (List.mem_singleton_self _)
    · simp at he
  · simp only [hk, if_true] at he
    simp only [List.mem_singleton, Event.cmd.injEq] at he
    exact absurd he.2.2 (by simp)

/-- A `try`-wrapped pair of wait operations whose shared handler debugs
`d`. -/
lemma tryDiag_seq2_waitDiag (c : Cluster) (w₁ w₂ d : String)
    (h1 : ∀ p ∈ waitDiagMap, p.1 = w₁ → p.2 = d)
    (h2 : ∀ p ∈ waitDiagMap, p.1 = w₂ → p.2 = d) :
    WaitDiag (tryDiag (seqStep (runC c w₁) fun _ => runC c w₂) d) := by
  intro p hp he
  unfold tryDiag seqStep runC at he ⊢
  cases hk1 : c.ok w₁
  · simp only [hk1, Bool.false_eq_true, if_false] at he ⊢
    simp only [List.mem_append, List.mem_singleton, Event.cmd.injEq] at he
    rcases he with ⟨hq, -, -⟩ | he
    · refine ⟨?_, trivial⟩
      rw [h1 p hp hq]
      exact List.mem_append_right _ (List.mem_singleton_self _)
    · simp at he
  · simp only [hk1, if_true] at he ⊢
    cases hk2 : c.ok w₂
    · simp only [hk2, Bool.false_eq_true, if_false] at he ⊢
      simp only [List.mem_append, List.mem_singleton, Event.cmd.injEq] at he
      rcases he with (⟨-, -, hq⟩ | ⟨hq, -, -⟩) | he
      · exact absurd hq (by simp)
      · refine ⟨?_, trivial⟩
        rw [h2 p hp hq]
        exact List.mem_append_right _ (List.mem_singleton_self _)
      · simp at he
    · simp only [hk2, if_true] at he
      simp only [List.mem_append, List.mem_singleton, Event.cmd.injEq] at he
      rcases he with ⟨-, -, hq⟩ | ⟨-, -, hq⟩ <;> exact absurd hq (by simp)

lemma if_waitDiag {cond : Bool} {a b : List Event × Bool}
    (ha : WaitDiag a) (hb : WaitDiag b) : WaitDiag (if cond then a else b) := by
  cases cond
  · simpa using hb
  · simpa using ha

lemma create_namespace_waitDiag (c : Cluster) : WaitDiag (create_namespace c) := by
  unfold create_namespace
  exact seqStep_waitDiag (runU_waitDiag c "get-ns")
    (if_waitDiag (fun p _ he => absurd he (by simp))
      (runC_waitDiag c "create-ns" (by decide)))

lemma postgresStage_waitDiag (c : Cluster) : WaitDiag (postgresStage c) := by
  unfold postgresStage deploy_postgres create_postgres_secret
  exact seqStep_waitDiag
    (seqStep_waitDiag (runC_waitDiag c "apply-postgres" (by decide))
      (tryDiag_seq2_waitDiag c "wait-exists-postgres" "wait-avail-postgres"
        "postgres-deployment" (by decide) (by decide)))
    (seqStep_waitDiag (runU_waitDiag c "delete-db-secret")
      (runC_waitDiag c "create-db-secret" (by decide)))

lemma s3Stage_waitDiag (c : Cluster) : WaitDiag (s3Stage c) := by
  unfold s3Stage create_s3_secret deploy_seaweedfs
  exact seqStep_waitDiag
    (seqStep_waitDiag (runU_waitDiag c "delete-s3-secret")
      (runC_waitDiag c "create-s3-secret" (by decide)))
    (seqStep_waitDiag (runU_waitDiag c "delete-job-seaweedfs")
      (seqStep_waitDiag (runC_waitDiag c "apply-seaweedfs" (by decide))
        (seqStep_waitDiag
          (tryDiag_seq2_waitDiag c "wait-exists-seaweedfs" "wait-avail-seaweedfs"
            "seaweedfs" (by decide) (by decide))
          (tryDiag_runC_waitDiag c "wait-job-seaweedfs" "init-seaweedfs" (by decide)))))

lemma deploy_mlflow_operator_waitDiag (c : Cluster) :
    WaitDiag (deploy_mlflow_operator c) := by
  unfold deploy_mlflow_operator
  exact seqStep_waitDiag (runC_waitDiag c "sed-ns" (by decide))
    (seqStep_waitDiag (runC_waitDiag c "sed-image" (by decide))
      (seqStep_waitDiag (runC_waitDiag c "chmod-tls" (by decide))
        (seqStep_waitDiag (runC_waitDiag c "generate-tls" (by decide))
          (seqStep_waitDiag (runC_waitDiag c "verify-tls-files" (by decide))
            (seqStep_waitDiag (runC_waitDiag c "apply-operator" (by decide))
              (tryDiag_runC_waitDiag c "wait-avail-operator"
                "mlflow-operator-controller-manager" (by decide)))))))

lemma deploy_mlflow_stage_waitDiag (c : Cluster) :
    WaitDiag (deploy_mlflow_stage c) := by
  unfold deploy_mlflow_stage
  exact seqStep_waitDiag (runC_waitDiag c "apply-cr" (by decide))
    (seqStep_waitDiag
      (tryDiag_runC_waitDiag c "wait-exists-mlflow"
        "mlflow-operator-controller-manager" (by decide))
      (tryDiag_runC_waitDiag c "wait-avail-mlflow" "mlflow" (by decide)))

lemma setup_port_forward_waitDiag (c : Cluster) :
    WaitDiag (setup_port_forward c) := by
  intro p hp he
  simp only [setup_port_forward, List.mem_singleton, Event.cmd.injEq] at he
  fin_cases hp <;> exact absurd he.1 (by decide)

/-! ### Name footprints -/

lemma namesOk_mono {r : List Event × Bool} {fp fp' : List String}
    (h : NamesOk r fp) (hsub : ∀ x ∈ fp, x ∈ fp') : NamesOk r fp' :=
  ⟨h.1, fun n hn => hsub n (h.2 n hn)⟩

lemma runC_namesOk (c : Cluster) (n : String) : NamesOk (runC c n) [n] := by
  exact ⟨by simp [cmdNames, runC], fun x hx => by simpa [cmdNames, runC] using hx⟩

lemma runU_namesOk (c : Cluster) (n : String) : NamesOk (runU c n) [n] := by
  exact ⟨by simp [cmdNames, runU], fun x hx => by simpa [cmdNames, runU] using hx⟩

lemma nil_namesOk (fp : List String) :
    NamesOk (([], true) : List Event × Bool) fp := by
  exact ⟨by simp [cmdNames], fun x hx => by simp [cmdNames] at hx⟩

lemma seqStep_namesOk {a : List Event × Bool} {f : Unit → List Event × Bool}
    {fa fb : List String} (ha : NamesOk a fa) (hb : NamesOk (f ()) fb)
    (hdisj : ∀ x ∈ fa, x ∉ fb) : NamesOk (seqStep a f) (fa ++ fb) := by
  rcases seqStep_trace a f with ⟨-, htr, -⟩ | ⟨-, heq⟩
  · constructor
    · rw [htr, cmdNames_append]
      exact ha.1.append hb.1
        (fun x hxa hxb => hdisj x (ha.2 x hxa) (hb.2 x hxb))
    · intro x hx
      rw [htr, cmdNames_append] at hx
      rcases List.mem_append.mp hx with hx | hx
      · exact List.mem_append_left _ (ha.2 x hx)
      · exact List.mem_append_right _ (hb.2 x hx)
  · rw [heq]
    exact namesOk_mono ha (fun x hx => List.mem_append_left _ hx)

lemma tryDiag_namesOk {body : List Event × Bool} {fp : List String} {w : String}
    (h : NamesOk body fp) : NamesOk (tryDiag body w) fp := by
  unfold tryDiag
  cases hb : body.2
  · simp only [hb, Bool.false_eq_true, if_false]
    have : cmdNames (body.1 ++ [Event.diag w]) = cmdNames body.1 := by
      rw [cmdNames_append]; simp [cmdNames]
    exact ⟨by simpa [this] using h.1, fun n hn => h.2 n (by simpa [this] using hn)⟩
  · simp only [hb, if_true]
    exact h

lemma if_namesOk {cond : Bool} {a b : List Event × Bool} {fp : List String}
    (ha : NamesOk a fp) (hb : NamesOk b fp) : NamesOk (if cond then a else b) fp := by
  cases cond
  · simpa using hb
  · simpa using ha

/-- The operation-name footprints of the six pipeline stages. -/
def nsNames : List String := ["get-ns", "create-ns"]

def pgNames : List String :=
  ["apply-postgres", "wait-exists-postgres", "wait-avail-postgres",
   "delete-db-secret", "create-db-secret"]

def s3Names : List String :=
  ["delete-s3-secret", "create-s3-secret", "delete-job-seaweedfs",
   "apply-seaweedfs", "wait-exists-seaweedfs", "wait-avail-seaweedfs",
   "wait-job-seaweedfs"]

def opNames : List String :=
  ["sed-ns", "sed-image", "chmod-tls", "generate-tls", "verify-tls-files",
   "apply-operator", "wait-avail-operator"]

def crNames : List String := ["apply-cr", "wait-exists-mlflow", "wait-avail-mlflow"]

def svcNames : List String := ["get-svc"]

lemma create_namespace_namesOk (c : Cluster) : NamesOk (create_namespace c) nsNames := by
  unfold create_namespace
  refine namesOk_mono (seqStep_namesOk (runU_namesOk c "get-ns")
    (if_namesOk (nil_namesOk ["create-ns"]) (runC_namesOk c "create-ns"))
    (by decide)) (by decide)

lemma postgresStage_namesOk (c : Cluster) : NamesOk (postgresStage c) pgNames := by
  unfold postgresStage deploy_postgres create_postgres_secret
  refine namesOk_mono (seqStep_namesOk
    (seqStep_namesOk (runC_namesOk c "apply-postgres")
      (tryDiag_namesOk (seqStep_namesOk (runC_namesOk c "wait-exists-postgres")
        (runC_namesOk c "wait-avail-postgres") (by decide)))
      (by decide))
    (seqStep_namesOk (runU_namesOk c "delete-db-secret")
      (runC_namesOk c "create-db-secret") (by decide))
    (by decide)) (by decide)

lemma s3Stage_namesOk (c : Cluster) : NamesOk (s3Stage c) s3Names := by
  unfold s3Stage create_s3_secret deploy_seaweedfs
  refine namesOk_mono (seqStep_namesOk
    (seqStep_namesOk (runU_namesOk c "delete-s3-secret")
      (runC_namesOk c "create-s3-secret") (by decide))
    (seqStep_namesOk (runU_namesOk c "delete-job-seaweedfs")
      (seqStep_namesOk (runC_namesOk c "apply-seaweedfs")
        (seqStep_namesOk
          (tryDiag_namesOk (seqStep_namesOk (runC_namesOk c "wait-exists-seaweedfs")
            (runC_namesOk c "wait-avail-seaweedfs") (by decide)))
          (tryDiag_namesOk (runC_namesOk c "wait-job-seaweedfs"))
          (by decide))
        (by decide))
      (by decide))
    (by decide)) (by decide)

lemma deploy_mlflow_operator_namesOk (c : Cluster) :
    NamesOk (deploy_mlflow_operator c) opNames := by
  unfold deploy_mlflow_operator
  refine namesOk_mono (seqStep_namesOk (runC_namesOk c "sed-ns")
    (seqStep_namesOk (runC_namesOk c "sed-image")
      (seqStep_namesOk (runC_namesOk c "chmod-tls")
        (seqStep_namesOk (runC_namesOk c "generate-tls")
          (seqStep_namesOk (runC_namesOk c "verify-tls-files")
            (seqStep_namesOk (runC_namesOk c "apply-operator")
              (tryDiag_namesOk (runC_namesOk c "wait-avail-operator"))
              (by decide))
            (by decide))
          (by decide))
        (by decide))
      (by decide))
    (by decide)) (by decide)

lemma deploy_mlflow_stage_namesOk (c : Cluster) :
    NamesOk (deploy_mlflow_stage c) crNames := by
  unfold deploy_mlflow_stage
  refine namesOk_mono (seqStep_namesOk (runC_namesOk c "apply-cr")
    (seqStep_namesOk (tryDiag_namesOk (runC_namesOk c "wait-exists-mlflow"))
      (tryDiag_namesOk (runC_namesOk c "wait-avail-mlflow"))
      (by decide))
    (by decide)) (by decide)

lemma setup_port_forward_namesOk (c : Cluster) :
    NamesOk (setup_port_forward c) svcNames := by
  exact ⟨by simp [cmdNames, setup_port_forward],
    fun x hx => by simpa [cmdNames, setup_port_forward, svcNames] using hx⟩

/-! ### Cleanup-freedom of the stage traces -/

/-- The trace contains no cleanup event (only the orchestrator's `finally`
clause emits one). -/
def NoCleanup (r : List Event × Bool) : Prop :=
  Event.cleanup ∉ r.1

lemma runC_noCleanup (c : Cluster) (n : String) : NoCleanup (runC c n) := by
  simp [NoCleanup, runC]

lemma runU_noCleanup (c : Cluster) (n : String) : NoCleanup (runU c n) := by
  simp [NoCleanup, runU]

lemma seqStep_noCleanup {a : List Event × Bool} {f : Unit → List Event × Bool}
    (ha : NoCleanup a) (hb : NoCleanup (f ())) : NoCleanup (seqStep a f) := by
  rcases seqStep_trace a f with ⟨-, htr, -⟩ | ⟨-, heq⟩
  · unfold NoCleanup
    rw [htr]
    intro hmem
    rcases List.mem_append.mp hmem with hmem | hmem
    · exact ha hmem
    · exact hb hmem
  · rw [NoCleanup, heq]
    exact ha

lemma tryDiag_noCleanup {body : List Event × Bool} {w : String}
    (h : NoCleanup body) : NoCleanup (tryDiag body w) := by
  unfold tryDiag
  cases hb : body.2
  · simp only [hb, Bool.false_eq_true, if_false]
    intro hmem
    rcases List.mem_append.mp hmem with hmem | hmem
    · exact h hmem
    · simp at hmem
  · simpa using h

lemma if_noCleanup {cond : Bool} {a b : List Event × Bool}
    (ha : NoCleanup a) (hb : NoCleanup b) : NoCleanup (if cond then a else b) := by
  cases cond
  · simpa using hb
  · simpa using ha

lemma create_namespace_noCleanup (c : Cluster) : NoCleanup (create_namespace c) := by
  unfold create_namespace
  exact seqStep_noCleanup (runU_noCleanup c "get-ns")
    (if_noCleanup (by simp [NoCleanup]) (runC_noCleanup c "create-ns"))

lemma postgresStage_noCleanup (c : Cluster) : NoCleanup (postgresStage c) := by
  unfold postgresStage deploy_postgres create_postgres_secret
  exact seqStep_noCleanup
    (seqStep_noCleanup (runC_noCleanup c "apply-postgres")
      (tryDiag_noCleanup (seqStep_noCleanup (runC_noCleanup c "wait-exists-postgres")
        (runC_noCleanup c "wait-avail-postgres"))))
    (seqStep_noCleanup (runU_noCleanup c "delete-db-secret")
      (runC_noCleanup c "create-db-secret"))

lemma s3Stage_noCleanup (c : Cluster) : NoCleanup (s3Stage c) := by
  unfold s3Stage create_s3_secret deploy_seaweedfs
  exact seqStep_noCleanup
    (seqStep_noCleanup (runU_noCleanup c "delete-s3-secret")
      (runC_noCleanup c "create-s3-secret"))
    (seqStep_noCleanup (runU_noCleanup c "delete-job-seaweedfs")
      (seqStep_noCleanup (runC_noCleanup c "apply-seaweedfs")
        (seqStep_noCleanup
          (tryDiag_noCleanup (seqStep_noCleanup (runC_noCleanup c "wait-exists-seaweedfs")
            (runC_noCleanup c "wait-avail-seaweedfs")))
          (tryDiag_noCleanup (runC_noCleanup c "wait-job-seaweedfs")))))

lemma deploy_mlflow_operator_noCleanup (c : Cluster) :
    NoCleanup (deploy_mlflow_operator c) := by
  unfold deploy_mlflow_operator
  exact seqStep_noCleanup (runC_noCleanup c "sed-ns")
    (seqStep_noCleanup (runC_noCleanup c "sed-image")
      (seqStep_noCleanup (runC_noCleanup c "chmod-tls")
        (seqStep_noCleanup (runC_noCleanup c "generate-tls")
          (seqStep_noCleanup (runC_noCleanup c "verify-tls-files")
            (seqStep_noCleanup (runC_noCleanup c "apply-operator")
              (tryDiag_noCleanup (runC_noCleanup c "wait-avail-operator")))))))

lemma deploy_mlflow_stage_noCleanup (c : Cluster) :
    NoCleanup (deploy_mlflow_stage c) := by
  unfold deploy_mlflow_stage
  exact seqStep_noCleanup (runC_noCleanup c "apply-cr")
    (seqStep_noCleanup (tryDiag_noCleanup (runC_noCleanup c "wait-exists-mlflow"))
      (tryDiag_noCleanup (runC_noCleanup c "wait-avail-mlflow")))

lemma setup_port_forward_noCleanup (c : Cluster) :
    NoCleanup (setup_port_forward c) := by
  simp [NoCleanup, setup_port_forward]

/-! ### Pipeline-level lemmas -/

/-- Footprint annotation of a stage list: each stage's names stay inside
its footprint and are disjoint from all later footprints. -/
def StepsNamesOk (c : Cluster) : List (PipeStep × List String) → Prop
  | [] => True
  | (s, fp) :: rest => NamesOk (s.action c) fp
      ∧ (∀ x ∈ fp, x ∉ (rest.map Prod.snd).join)
      ∧ StepsNamesOk c rest

lemma runSteps_namesOk (a : Args) (c : Cluster) :
    ∀ l : List (PipeStep × List String), StepsNamesOk c l →
      NamesOk (runSteps a c (l.map Prod.fst)) ((l.map Prod.snd).join) := by
  intro l
  induction l with
  | nil =>
    intro _
    exact ⟨by simp [runSteps, cmdNames], fun x hx => by simp [runSteps, cmdNames] at hx⟩
  | cons hd rest ih =>
    obtain ⟨s, fp⟩ := hd
    intro h
    obtain ⟨hso, hdisj, hrest⟩ := h
    have ihr := ih hrest
    simp only [List.map_cons, List.join_cons]
    rw [runSteps]
    by_cases he : s.enabled a
    · simp only [he, if_true]
      cases hr : (s.action c).2
      · simp only [hr, Bool.false_eq_true, if_false]
        exact namesOk_mono hso (fun x hx => List.mem_append_left _ hx)
      · simp only [hr, if_true]
        constructor
        · rw [cmdNames_append]
          exact hso.1.append ihr.1
            (fun x hxa hxb => hdisj x (hso.2 x hxa) (ihr.2 x hxb))
        · intro x hx
          rw [cmdNames_append] at hx
          rcases List.mem_append.mp hx with hx | hx
          · exact List.mem_append_left _ (hso.2 x hx)
          · exact List.mem_append_right _ (ihr.2 x hx)
    · simp only [he, if_false]
      exact namesOk_mono ihr (fun x hx => List.mem_append_right _ hx)

/-- Fail-fast annotation of a stage list: each stage has `FailShape` on
failure, and (except possibly the last stage) a clean trace on success. -/
def StepsSpec (c : Cluster) : List PipeStep → Prop
  | [] => True
  | s :: rest => ((s.action c).2 = false → FailShape (s.action c).1)
      ∧ (rest = [] ∨ ((s.action c).2 = true → NoFail (s.action c).1))
      ∧ StepsSpec c rest

lemma runSteps_failShape (a : Args) (c : Cluster) :
    ∀ l : List PipeStep, StepsSpec c l →
      (runSteps a c l).2 = false → FailShape (runSteps a c l).1 := by
  intro l
  induction l with
  | nil =>
    intro _ hfail
    simp [runSteps] at hfail
  | cons s rest ih =>
    intro h hfail
    obtain ⟨hfailhead, hsucc, hrest⟩ := h
    rw [runSteps] at hfail ⊢
    by_cases he : s.enabled a
    · simp only [he, if_true] at hfail ⊢
      cases hr : (s.action c).2
      · simp only [hr, Bool.false_eq_true, if_false]
        exact hfailhead hr
      · simp only [hr, if_true] at hfail ⊢
        have hne : rest ≠ [] := by
          intro hnil
          rw [hnil] at hfail
          simp [runSteps] at hfail
        have hnofail := (hsucc.resolve_left hne) hr
        obtain ⟨pre, n, post, htr, hpre, hpost⟩ := ih hrest hfail
        refine ⟨(s.action c).1 ++ pre, n, post, ?_, ?_, hpost⟩
        · rw [htr]
          simp
        · intro e hmem
          rcases List.mem_append.mp hmem with hmem | hmem
          · exact hnofail e hmem
          · exact hpre e hmem
    · simp only [he, if_false] at hfail ⊢
      exact ih hrest hfail

lemma runSteps_waitDiag (a : Args) (c : Cluster) :
    ∀ l : List PipeStep, (∀ s ∈ l, WaitDiag (s.action c)) →
      WaitDiag (runSteps a c l) := by
  intro l
  induction l with
  | nil =>
    intro _ p hp he
    simp [runSteps] at he
  | cons s rest ih =>
    intro h p hp he
    have hhead := h s (List.mem_cons_self s rest)
    have htail := ih (fun t ht => h t (List.mem_cons_of_mem s ht))
    rw [runSteps] at he ⊢
    by_cases hen : s.enabled a
    · simp only [hen, if_true] at he ⊢
      cases hr : (s.action c).2
      · simp only [hr, Bool.false_eq_true, if_false] at he ⊢
        exact ⟨(hhead p hp he).1, trivial⟩
      · simp only [hr, if_true] at he ⊢
        rcases List.mem_append.mp he with he | he
        · exact absurd (hhead p hp he).2 (by simp [hr])
        · obtain ⟨hd, hres⟩ := htail p hp he
          exact ⟨List.mem_append_right _ hd, hres⟩
    · simp only [hen, if_false] at he ⊢
      exact htail p hp he

lemma runSteps_noCleanup (a : Args) (c : Cluster) :
    ∀ l : List PipeStep, (∀ s ∈ l, NoCleanup (s.action c)) →
      NoCleanup (runSteps a c l) := by
  intro l
  induction l with
  | nil =>
    intro _
    simp [NoCleanup, runSteps]
  | cons s rest ih =>
    intro h
    have hhead := h s (List.mem_cons_self s rest)
    have htail := ih (fun t ht => h t (List.mem_cons_of_mem s ht))
    unfold NoCleanup
    rw [runSteps]
    by_cases hen : s.enabled a
    · simp only [hen, if_true]
      cases hr : (s.action c).2
      · simp only [hr, Bool.false_eq_true, if_false]
        exact hhead
      · simp only [hr, if_true]
        intro hmem
        rcases List.mem_append.mp hmem with hmem | hmem
        · exact hhead hmem
        · exact htail hmem
    · simp only [hen, if_false]
      exact htail

/-- The stage list annotated with footprints. -/
def pipelinePairs : List (PipeStep × List String) :=
  [ (⟨fun _ => true, create_namespace⟩, nsNames),
    (⟨fun a => a.backend_store == "postgres" || a.registry_store == "postgres",
       postgresStage⟩, pgNames),
    (⟨fun a => a.artifact_storage == "s3", s3Stage⟩, s3Names),
    (⟨fun _ => true, deploy_mlflow_operator⟩, opNames),
    (⟨fun _ => true, deploy_mlflow_stage⟩, crNames),
    (⟨fun _ => true, setup_port_forward⟩, svcNames) ]

lemma pipelinePairs_fst : pipelinePairs.map Prod.fst = pipelineSteps := rfl

lemma pipeline_stepsNamesOk (c : Cluster) : StepsNamesOk c pipelinePairs :=
  ⟨create_namespace_namesOk c, by decide,
   postgresStage_namesOk c, by decide,
   s3Stage_namesOk c, by decide,
   deploy_mlflow_operator_namesOk c, by decide,
   deploy_mlflow_stage_namesOk c, by decide,
   setup_port_forward_namesOk c, by decide, trivial⟩

lemma pipeline_stepsSpec (c : Cluster) : StepsSpec c pipelineSteps :=
  ⟨(create_namespace_stage c).2, Or.inr (create_namespace_stage c).1,
   (postgresStage_stage c).2, Or.inr (postgresStage_stage c).1,
   (s3Stage_stage c).2, Or.inr (s3Stage_stage c).1,
   (deploy_mlflow_operator_stage c).2, Or.inr (deploy_mlflow_operator_stage c).1,
   (deploy_mlflow_stage_stage c).2, Or.inr (deploy_mlflow_stage_stage c).1,
   (fun h => by simp [setup_port_forward] at h),
   Or.inl rfl, trivial⟩

lemma pipeline_waitDiags (c : Cluster) :
    ∀ s ∈ pipelineSteps, WaitDiag (s.action c) := by
  intro s hs
  simp only [pipelineSteps, List.mem_cons, List.not_mem_nil, or_false] at hs
  rcases hs with rfl | rfl | rfl | rfl | rfl | rfl
  · exact create_namespace_waitDiag c
  · exact postgresStage_waitDiag c
  · exact s3Stage_waitDiag c
  · exact deploy_mlflow_operator_waitDiag c
  · exact deploy_mlflow_stage_waitDiag c
  · exact setup_port_forward_waitDiag c

lemma pipeline_noCleanups (c : Cluster) :
    ∀ s ∈ pipelineSteps, NoCleanup (s.action c) := by
  intro s hs
  simp only [pipelineSteps, List.mem_cons, List.not_mem_nil, or_false] at hs
  rcases hs with rfl | rfl | rfl | rfl | rfl | rfl
  · exact create_namespace_noCleanup c
  · exact postgresStage_noCleanup c
  · exact s3Stage_noCleanup c
  · exact deploy_mlflow_operator_noCleanup c
  · exact deploy_mlflow_stage_noCleanup c
  · exact setup_port_forward_noCleanup c

/-! ### Claims about the pipeline -/

/-- Oracle on which every operation succeeds except the PostgreSQL
manifest apply, and the namespace query reports `Active`. -/
def cApplyPgFail : Cluster :=
  ⟨fun s => !(s == "apply-postgres"), fun _ => "namespace Active"⟩

/-- Oracle on which every operation succeeds except the final MLflow
availability wait. -/
def cWaitMlflowFail : Cluster :=
  ⟨fun s => !(s == "wait-avail-mlflow"), fun _ => "namespace Active"⟩

/-- Configuration with a postgres backend store. -/
def pgArgs : Args := { defaultArgs with backend_store := "postgres" }

/-- Event filter for diagnostics invocations. -/
def Event.isDiag : Event → Bool
  | Event.diag _ => true
  | _ => false

/-- C5, counterexample.  The claim asserts that a failure of a stage's
apply operation triggers the diagnostics collector before the error is
re-raised.  When the PostgreSQL manifest apply fails, the pipeline fails
and that failing apply is its last event: no diagnostics invocation occurs
anywhere in the trace. -/
theorem apply_failure_no_diagnostics_counterexample :
    (deployPipeline pgArgs cApplyPgFail).2 = false
  ∧ Event.cmd "apply-postgres" true false ∈ (deployPipeline pgArgs cApplyPgFail).1
  ∧ (deployPipeline pgArgs cApplyPgFail).1.filter Event.isDiag = [] := by
  refine ⟨by decide, by decide, by decide⟩

/-- C5, amended.  For every configuration and cluster oracle: the pipeline
attempts no operation twice (no retry of any apply or wait); a failure of
any stage's wait operation puts the matching diagnostics invocation into
the trace and fails the pipeline; and whenever the pipeline fails, its
trace ends at the first raising operation, followed by at most the failing
stage's single diagnostics invocation — later stages never run.  (Apply
failures abort the pipeline the same way but trigger no diagnostics.) -/
theorem pipeline_failfast_diag (a : Args) (c : Cluster) :
    (cmdNames (deployPipeline a c).1).Nodup
  ∧ (∀ p ∈ waitDiagMap, Event.cmd p.1 true false ∈ (deployPipeline a c).1 →
      Event.diag p.2 ∈ (deployPipeline a c).1 ∧ (deployPipeline a c).2 = false)
  ∧ ((deployPipeline a c).2 = false → FailShape (deployPipeline a c).1) := by
  refine ⟨?_, ?_, ?_⟩
  · have h := runSteps_namesOk a c pipelinePairs (pipeline_stepsNamesOk c)
    rw [pipelinePairs_fst] at h
    exact h.1
  · exact runSteps_waitDiag a c pipelineSteps (pipeline_waitDiags c)
  · exact runSteps_failShape a c pipelineSteps (pipeline_stepsSpec c)

/-- C5, witness for `pipeline_failfast_diag`: on the oracle where only the
final MLflow availability wait fails, the trace contains the diagnostics
invocation on `mlflow` and the pipeline fails. -/
theorem pipeline_failfast_diag_witness :
    Event.diag "mlflow" ∈ (deployPipeline defaultArgs cWaitMlflowFail).1
  ∧ (deployPipeline defaultArgs cWaitMlflowFail).2 = false := by
  exact (pipeline_failfast_diag defaultArgs cWaitMlflowFail).2.1
    ("wait-avail-mlflow", "mlflow") (by decide) (by decide)

/-- C6.  On every execution of `deploy`, whatever the configuration and
the cluster behaviour, the TLS cleanup runs exactly once and is the last
event before the process terminates (with its zero or non-zero exit code),
so in particular a failure exit happens only after the cleanup has run. -/
theorem cleanup_exactly_once (a : Args) (c : Cluster) :
    (deploy a c).1.count Event.cleanup = 1
  ∧ (deploy a c).1.getLast? = some Event.cleanup := by
  have hnc : Event.cleanup ∉ (deployPipeline a c).1 :=
    runSteps_noCleanup a c pipelineSteps (pipeline_noCleanups c)
  constructor
  · show ((deployPipeline a c).1 ++ [Event.cleanup]).count Event.cleanup = 1
    rw [List.count_append, List.count_eq_zero.mpr hnc]
    rfl
  · show ((deployPipeline a c).1 ++ [Event.cleanup]).getLast? = some Event.cleanup
    simp

/-- C9.  `create_namespace` first queries the namespace; the create
operation is issued iff the query did not report the namespace `Active`
(the script's notion of "the namespace exists"). -/
theorem namespace_create_iff_absent (c : Cluster) :
    (create_namespace c).1.head? = some (Event.cmd "get-ns" false (c.ok "get-ns"))
  ∧ ((Event.cmd "create-ns" true (c.ok "create-ns") ∈ (create_namespace c).1)
      ↔ containsStr (c.out "get-ns") "Active" = false) := by
  unfold create_namespace
  cases h : containsStr (c.out "get-ns") "Active" <;>
    simp [seqStep, runU, runC, h]

/-- C9, witness for `namespace_create_iff_absent`: on an oracle whose
namespace query reports nothing, the create operation is issued; on one
reporting `Active`, it is not. -/
theorem namespace_create_iff_absent_witness :
    Event.cmd "create-ns" true true ∈
      (create_namespace ⟨fun _ => true, fun _ => ""⟩).1
  ∧ Event.cmd "create-ns" true true ∉
      (create_namespace ⟨fun _ => true, fun _ => "namespace Active"⟩).1 := by
  constructor
  · exact (namespace_create_iff_absent ⟨fun _ => true, fun _ => ""⟩).2.mpr (by decide)
  · intro hmem
    have h := (namespace_create_iff_absent
      ⟨fun _ => true, fun _ => "namespace Active"⟩).2.mp hmem
    exact absurd h (by decide)

/-! ## The diagnostics collector (`debug_deployment`, deploy.py lines 802-870)

Each probe is a `kubectl` invocation that can return output or raise;
probes are supplied by an oracle.  The Python `try/except` guards appear
as explicit `match`es on the probe outcome, and the collector itself is
written in the `Except` monad so that an unguarded probe failure would
surface as `.error`. -/

/-- The per-pod probes (describe, phase query, logs, events):
`.error ()` models the underlying command raising. -/
structure PodProbes where
  descr : Except Unit String
  phase : Except Unit String
  logs : Except Unit String
  events : Except Unit String

/-- The probes consumed by one `debug_deployment` invocation.  `podsExact`
is the `-l app={deployment}` pod listing; `podsBroad` models the broader
selector that the spec's claimed fallback would consult. -/
structure DiagOracle where
  describeDeployment : Except Unit String
  podsExact : Except Unit (List String)
  podsBroad : Except Unit (List String)
  probes : String → PodProbes

/-- deploy.py lines 711-722, `get_pods_for_deployment`: the pod names from
the exact label query; an error yields `[]`. -/
def get_pods_for_deployment (o : DiagOracle) : List String :=
  match o.podsExact with
  | .ok l => l
  | .error _ => []

/-- deploy.py lines 737-748, `get_pod_events`: `None` exactly when the
probe raises; empty output becomes the string `No events found`. -/
def get_pod_events (o : DiagOracle) (pod : String) : Option String :=
  match (o.probes pod).events with
  | .ok s => some (if s = "" then "No events found" else s)
  | .error _ => none

/-- deploy.py lines 750-760, `get_pod_logs`: `None` exactly when the probe
raises; empty output becomes the string `No logs available`. -/
def get_pod_logs (o : DiagOracle) (pod : String) : Option String :=
  match (o.probes pod).logs with
  | .ok s => some (if s = "" then "No logs available" else s)
  | .error _ => none

/-- deploy.py lines 762-775, `is_pod_ready_for_logs`: phases that can have
logs; a raising phase query yields `False`. -/
def is_pod_ready_for_logs (o : DiagOracle) (pod : String) : Bool :=
  match (o.probes pod).phase with
  | .ok s => s == "Running" || s == "Succeeded" || s == "Failed"
  | .error _ => false

/-- What the collector reports for one pod: whether a description was
printed, and the contents of the events and logs sections (absent when the
section was not printed). -/
structure PodReport where
  pod : String
  described : Bool
  eventsSection : Option String
  logsSection : Option String
deriving DecidableEq, Repr

/-- The collector's report: whether the deployment description was
printed, and the per-pod reports. -/
structure Report where
  deploymentDescribed : Bool
  pods : List PodReport
deriving DecidableEq, Repr

/-- deploy.py lines 830-870, the per-pod body of `debug_deployment`'s
loop: description (guarded), phase query (guarded) gating the events
section for `Failed`/`Pending` pods, and the logs section for pods in a
log-ready phase. -/
def debugPod (o : DiagOracle) (pod : String) : PodReport where
  pod := pod
  described :=
    match (o.probes pod).descr with
    | .ok s => !(s == "")
    | .error _ => false
  eventsSection :=
    match (o.probes pod).phase with
    | .ok s =>
      if s == "Failed" || s == "Pending" then get_pod_events o pod
      else none
    | .error _ => none
  logsSection :=
    if is_pod_ready_for_logs o pod then get_pod_logs o pod else none

/-- deploy.py lines 802-870, `debug_deployment` in the `Except` monad: the
deployment describe is guarded, the pod listing swallows its own errors,
an empty listing returns early, and every per-pod probe is guarded — so no
raise can escape. -/
def debug_deployment (o : DiagOracle) : Except Unit Report :=
  let dep : Bool :=
    match o.describeDeployment with
    | .ok s => !(s == "")
    | .error _ => false
  let pods := get_pods_for_deployment o
  if pods = [] then Except.ok ⟨dep, []⟩
  else Except.ok ⟨dep, pods.map (debugPod o)⟩

/-- deploy.py lines 331-339, the pod discovery of the SeaweedFS init-job
debug path: query by the exact label `job-name=init-seaweedfs`; on an
empty result fall back to the broader `controller-uid` selector and keep
only pods whose name contains `seaweedfs`. -/
def seaweedfs_job_pod_discovery (exact broad : Except Unit (List String)) :
    List String :=
  let job_pods :=
    match exact with
    | .ok l => l
    | .error _ => []
  if job_pods = [] then
    (match broad with
     | .ok l => l
     | .error _ => []).filter fun pod => containsStr pod "seaweedfs"
  else job_pods

/-- The pod-discovery behaviour that claim C8 attributes to the
diagnostics collector, written from the spec's words for comparison:
exact label match first, and on an empty result the broader selector
post-filtered by a name-substring match on the workload name. -/
def claimedFallbackDiscovery (o : DiagOracle) (workload : String) : List String :=
  let exact :=
    match o.podsExact with
    | .ok l => l
    | .error _ => []
  if exact = [] then
    (match o.podsBroad with
     | .ok l => l
     | .error _ => []).filter fun pod => containsStr pod workload
  else exact

/-! ### Claims about the diagnostics collector -/

/-- Oracle with one pod whose phase query answers `Pending` but whose
events probe raises. -/
def oPendingEventsFail : DiagOracle :=
  { describeDeployment := .ok ""
    podsExact := .ok ["mlflow-abc"]
    podsBroad := .ok []
    probes := fun _ =>
      { descr := .ok "", phase := .ok "Pending", logs := .ok "", events := .error () } }

/-- C7, counterexample.  The claim asserts that a discovered pod whose
phase is `Pending` always gets an events section.  When the events probe
itself raises, `get_pod_events` returns `None` and the collector prints no
events section (only the probe-failure notice), so the report's events
section is absent — while the collector still returns normally. -/
theorem pending_without_events_counterexample :
    debug_deployment oPendingEventsFail =
      Except.ok ⟨false, [⟨"mlflow-abc", false, none, none⟩]⟩
  ∧ (oPendingEventsFail.probes "mlflow-abc").phase = .ok "Pending" := by
  constructor <;> rfl

lemma debugPod_pending (o : DiagOracle) (pod : String)
    (hphase : (o.probes pod).phase = .ok "Pending")
    (hev : (o.probes pod).events.isOk = true) :
    (debugPod o pod).eventsSection.isSome = true := by
  simp only [debugPod]
  rw [hphase]
  simp only [show (("Pending" : String) == "Failed"
    || ("Pending" : String) == "Pending") = true from rfl, if_true]
  unfold get_pod_events
  cases hevv : (o.probes pod).events
  · rw [hevv] at hev
    simp [Except.isOk, Except.toBool] at hev
  · simp

lemma debugPod_running (o : DiagOracle) (pod : String)
    (hphase : (o.probes pod).phase = .ok "Running")
    (hlg : (o.probes pod).logs.isOk = true) :
    (debugPod o pod).logsSection.isSome = true := by
  simp only [debugPod]
  have hready : is_pod_ready_for_logs o pod = true := by
    unfold is_pod_ready_for_logs
    rw [hphase]
    rfl
  rw [hready]
  simp only [if_true]
  unfold get_pod_logs
  cases hlgv : (o.probes pod).logs
  · rw [hlgv] at hlg
    simp [Except.isOk, Except.toBool] at hlg
  · simp

/-- C7, amended.  The collector never raises, whatever the probes do; and
for every discovered pod, a `Pending` phase yields an events section
whenever the events probe itself does not raise, and a `Running` phase
yields a logs section whenever the logs probe itself does not raise. -/
theorem debug_deployment_total (o : DiagOracle) :
    (debug_deployment o).isOk = true
  ∧ ∀ r, debug_deployment o = .ok r → ∀ p ∈ r.pods,
      ((o.probes p.pod).phase = .ok "Pending" →
        (o.probes p.pod).events.isOk = true → p.eventsSection.isSome = true)
    ∧ ((o.probes p.pod).phase = .ok "Running" →
        (o.probes p.pod).logs.isOk = true → p.logsSection.isSome = true) := by
  constructor
  · unfold debug_deployment
    by_cases h : get_pods_for_deployment o = [] <;>
      simp [h, Except.isOk, Except.toBool]
  · intro r hr p hp
    have hpods : p ∈ (get_pods_for_deployment o).map (debugPod o) := by
      unfold debug_deployment at hr
      by_cases h : get_pods_for_deployment o = []
      · rw [if_pos h] at hr
        cases hr
        simp at hp
      · rw [if_neg h] at hr
        cases hr
        exact hp
    obtain ⟨pod, -, hpod⟩ := List.mem_map.mp hpods
    have hpodname : p.pod = pod := by
      rw [← hpod]
      rfl
    constructor
    · intro hphase hev
      rw [hpodname] at hphase hev
      rw [← hpod]
      exact debugPod_pending o pod hphase hev
    · intro hphase hlg
      rw [hpodname] at hphase hlg
      rw [← hpod]
      exact debugPod_running o pod hphase hlg

/-- C7, witness for `debug_deployment_total`: a single `Running` pod with
working probes gets a logs section, and the collector returns normally. -/
theorem debug_deployment_total_witness :
    (debug_deployment
      ⟨.ok "", .ok ["p1"], .ok [],
        fun _ => ⟨.ok "", .ok "Running", .ok "log line", .ok ""⟩⟩).isOk = true
  ∧ ((debug_deployment
      ⟨.ok "", .ok ["p1"], .ok [],
        fun _ => ⟨.ok "", .ok "Running", .ok "log line", .ok ""⟩⟩).toOption.map
        (fun r => r.pods.map fun p => p.logsSection.isSome)) = some [true] := by
  refine ⟨(debug_deployment_total _).1, ?_⟩
  have h := (debug_deployment_total
    ⟨.ok "", .ok ["p1"], .ok [],
      fun _ => ⟨.ok "", .ok "Running", .ok "log line", .ok ""⟩⟩).2
    ⟨false, [⟨"p1", false, none, some "log line"⟩]⟩ rfl
    ⟨"p1", false, none, some "log line"⟩ (by decide)
  have hl := h.2 rfl rfl
  decide

/-- Oracle whose exact pod listing is empty while the broader selector
would find a matching pod. -/
def oNoFallback : DiagOracle :=
  { describeDeployment := .ok ""
    podsExact := .ok []
    podsBroad := .ok ["mlflow-xyz"]
    probes := fun _ => ⟨.ok "", .ok "", .ok "", .ok ""⟩ }

/-- C8, counterexample.  The claim asserts that the diagnostics collector
falls back to a broader selector (post-filtered by name substring) when
the exact label match returns nothing.  `debug_deployment` does no such
thing: on an empty exact result it reports no pods and returns, even
though the claimed fallback would have discovered `mlflow-xyz`. -/
theorem no_fallback_counterexample :
    debug_deployment oNoFallback = Except.ok ⟨false, []⟩
  ∧ claimedFallbackDiscovery oNoFallback "mlflow" = ["mlflow-xyz"] := by
  constructor <;> rfl

/-- C8, amended.  The exact-label-then-broader-selector fallback with the
name-substring post-filter exists only in the SeaweedFS init-job debug
path: there, a non-empty exact `job-name` query is used as is (the broader
selector is never consulted), and an empty or failing one falls back to
the `controller-uid` listing filtered to names containing `seaweedfs`.
The general collector `debug_deployment` instead reports no pods when the
exact query comes back empty. -/
theorem pod_discovery_fallback (exact broad : Except Unit (List String)) :
    (∀ l, exact = .ok l → l ≠ [] → seaweedfs_job_pod_discovery exact broad = l)
  ∧ ((match exact with | .ok l => l | .error _ => []) = [] →
      seaweedfs_job_pod_discovery exact broad =
        (match broad with | .ok l => l | .error _ => []).filter
          (fun pod => containsStr pod "seaweedfs"))
  ∧ ∀ o : DiagOracle, o.podsExact = .ok [] →
      ∀ r, debug_deployment o = .ok r → r.pods = [] := by
  refine ⟨?_, ?_, ?_⟩
  · intro l hl hne
    unfold seaweedfs_job_pod_discovery
    rw [hl]
    simp [hne]
  · intro hempty
    unfold seaweedfs_job_pod_discovery
    rw [hempty]
    simp
  · intro o ho r hr
    unfold debug_deployment at hr
    have hpods : get_pods_for_deployment o = [] := by
      unfold get_pods_for_deployment
      rw [ho]
    simp only [hpods, if_true] at hr
    cases hr
    rfl

/-- C8, witness for `pod_discovery_fallback`: a non-empty exact query is
used as is; an empty one falls back to the filtered broader listing; and
`debug_deployment` reports no pods on an empty exact listing. -/
theorem pod_discovery_fallback_witness :
    seaweedfs_job_pod_discovery (.ok ["init-seaweedfs-x"]) (.ok ["seaweedfs-y"])
      = ["init-seaweedfs-x"]
  ∧ seaweedfs_job_pod_discovery (.error ()) (.ok ["seaweedfs-y", "minio-z"])
      = ["seaweedfs-y"]
  ∧ (debug_deployment oNoFallback).toOption.map Report.pods = some [] := by
  refine ⟨?_, ?_, ?_⟩
  · exact (pod_discovery_fallback (.ok ["init-seaweedfs-x"]) (.ok ["seaweedfs-y"])).1
      ["init-seaweedfs-x"] rfl (by decide)
  · have h := (pod_discovery_fallback (.error ())
      (.ok ["seaweedfs-y", "minio-z"])).2.1 rfl
    rw [h]
    decide
  · have h := (pod_discovery_fallback (Except.ok ([] : List String))
      (Except.ok ([] : List String))).2.2 oNoFallback rfl ⟨false, []⟩ rfl
    show (Except.ok (⟨false, []⟩ : Report)).toOption.map Report.pods = some []
    simpa [Except.toOption] using congrArg some h

/-! ## The TLS cleanup (`cleanup_tls_certificates`, deploy.py lines 167-185) -/

/-- The filesystem operations the cleanup performs; `.error ()` models the
operation raising. -/
structure FsOracle where
  certExists : Except Unit Bool
  certUnlink : Except Unit Unit
  keyExists : Except Unit Bool
  keyUnlink : Except Unit Unit

/-- The body of the cleanup's `try` block: remove the certificate file if
present, then the key file (an exception in an earlier operation skips the
later ones). -/
def cleanup_tls_body (o : FsOracle) : Except Unit Unit :=
  o.certExists.bind fun ce =>
    (if ce then o.certUnlink else Except.ok ()).bind fun _ =>
      o.keyExists.bind fun ke =>
        if ke then o.keyUnlink else Except.ok ()

/-- deploy.py lines 167-185, `cleanup_tls_certificates`: the body under
`try`, the `except` clause reducing any exception to a printed warning.
Returns whether the warning was printed. -/
def cleanup_tls_certificates (o : FsOracle) : Except Unit Bool :=
  match cleanup_tls_body o with
  | .ok _ => Except.ok false
  | .error _ => Except.ok true

/-- C10.  The TLS cleanup never raises, whatever the filesystem does: any
exception of the body is caught and surfaces only as the warning flag —
so a cleanup failure can neither mask an original pipeline error nor turn
a successful run into a failure. -/
theorem cleanup_never_raises (o : FsOracle) :
    (cleanup_tls_certificates o).isOk = true
  ∧ (cleanup_tls_certificates o = Except.ok true
      ↔ (cleanup_tls_body o).isOk = false) := by
  unfold cleanup_tls_certificates
  cases h : cleanup_tls_body o <;> simp [Except.isOk, Except.toBool]

/-- C10, witness for `cleanup_never_raises` on a filesystem whose
certificate removal raises: the cleanup still returns, with the warning. -/
theorem cleanup_never_raises_witness :
    (cleanup_tls_certificates ⟨.ok true, .error (), .ok true, .ok ()⟩).isOk = true
  ∧ cleanup_tls_certificates ⟨.ok true, .error (), .ok true, .ok ()⟩
      = Except.ok true := by
  have h := cleanup_never_raises ⟨.ok true, .error (), .ok true, .ok ()⟩
  exact ⟨h.1, h.2.mpr (by decide)⟩

end MLflowDeploy
